import Mathlib

/-!
Shallow embedding of the thingylaunch interactive input engine
(`Thingylaunch::keypress` in src/thingylaunch.cpp, lines 416-540) together
with models of its stateful collaborators.

The command buffer `m_command` is a `std::string`, modelled as a `List Nat`
of byte values; `m_cursorPos` is a `std::string::size_type` (64-bit
unsigned), modelled as `Nat` with the one wraparound that actually occurs
(`m_cursorPos - 1` at 0) made explicit.

The Completion, History and Bookmark implementations are not under src/
(only headers and call sites are); they are modelled from the spec where
noted.
-/

/-- Resolved key event as delivered to `keypress`: the looked-up keysym plus
the three modifier bits the function consults (ShiftMask, ControlMask,
Mod1Mask). -/
structure KeyEvent where
  sym : Nat
  shift : Bool
  ctrl : Bool
  alt : Bool
deriving Repr, DecidableEq

/-- Model of `toupper` applied to the keysym when Shift is held
(default C locale: only ASCII lowercase letters are mapped). -/
def toupperSym (c : Nat) : Nat :=
  if 0x61 ≤ c ∧ c ≤ 0x7a then c - 0x20 else c

/-- Symbol after the shift-based case conversion at the top of `keypress`. -/
def resolveSym (ev : KeyEvent) : Nat :=
  if ev.shift then toupperSym ev.sym else ev.sym

/-- Modelled from the spec: `Bookmark::lookup` (bookmark.cpp is not under
src/). The table is a static association list from key symbols to command
byte strings; a miss is reported as the empty string, which is the
representation `keypress` tests with `book.empty()`. -/
def lookupBk : List (Nat × List Nat) → Nat → List Nat
  | [], _ => []
  | (s, cmd) :: rest, c => if s = c then cmd else lookupBk rest c

/-- Modelled from the spec: `History` state (history.cpp is not under src/).
`entries` is the append-only log, most recent last; `nav` is the navigation
cursor, `none` being the at-end sentinel. -/
structure HistState where
  entries : List (List Nat)
  nav : Option Nat
deriving Repr, DecidableEq

/-- Modelled from the spec: `History::save` appends unconditionally and
returns navigation to the at-end sentinel. -/
def histSave (h : HistState) (cmd : List Nat) : HistState :=
  ⟨h.entries ++ [cmd], none⟩

/-- Modelled from the spec: `History::prev` moves one step toward older
entries (flooring at the oldest) and returns the entry at the cursor, or the
empty string on an empty store. -/
def histPrevFn (h : HistState) : HistState × List Nat :=
  match h.nav with
  | none =>
      match h.entries.length with
      | 0 => (h, [])
      | Nat.succ n => (⟨h.entries, some n⟩, h.entries.getD n [])
  | some i =>
      let j := if i = 0 then 0 else i - 1
      (⟨h.entries, some j⟩, h.entries.getD j [])

/-- Modelled from the spec: `History::next` moves one step toward newer
entries; moving past the newest returns to the at-end sentinel, whose value
is the empty string. -/
def histNextFn (h : HistState) : HistState × List Nat :=
  match h.nav with
  | none => (h, [])
  | some i =>
      if i + 1 < h.entries.length
      then (⟨h.entries, some (i + 1)⟩, h.entries.getD (i + 1) [])
      else (⟨h.entries, none⟩, [])

/-- Modelled from the spec: `Completion` engine state (completion.cpp is not
under src/). `candidates` is the fixed list produced by the last path scan,
`cursorIndex` the cycling position (`none` when no live list exists, i.e.
never scanned or reset since), `lastQuery` the prefix that produced the
list. -/
structure CompState where
  candidates : List (List Nat)
  cursorIndex : Option Nat
  lastQuery : Option (List Nat)
deriving Repr, DecidableEq

/-- Modelled from the spec: `Completion::reset` clears all engine state. -/
def compReset : CompState := ⟨[], none, none⟩

/-- Modelled from the spec: `Completion::next`. With no live list, scan the
search path for candidates matching the query and return the first (or the
query itself when the scan is empty); with a live list, advance the cycling
index by one modulo the list length and return that candidate. The path
scan is abstracted as a function from the query to the ordered, deduplicated
candidate list. -/
def compNext (scan : List Nat → List (List Nat)) (st : CompState)
    (q : List Nat) : CompState × List Nat :=
  match st.cursorIndex with
  | some i =>
      if st.candidates.length = 0 then (st, q)
      else
        let j := (i + 1) % st.candidates.length
        (⟨st.candidates, some j, st.lastQuery⟩, st.candidates.getD j q)
  | none =>
      match scan q with
      | [] => (⟨[], none, some q⟩, q)
      | c0 :: cs => (⟨c0 :: cs, some 0, some q⟩, c0)

/-- External collaborators of the engine: the completion path scan and the
bookmark table. -/
structure Env where
  scan : List Nat → List (List Nat)
  bookmarks : List (Nat × List Nat)

/-- The mutable state `keypress` operates on: `m_command`, `m_cursorPos`,
the completion engine and the history store. -/
structure EngineState where
  command : List Nat
  cursorPos : Nat
  comp : CompState
  hist : HistState
deriving Repr, DecidableEq

/-- What a `keypress` call returns to the event loop: `cont` for `false`
(keep looping), `term` for `true` (unwind), `exited` for the `exit(0)` on
Escape. -/
inductive KeyResult
  | cont
  | term
  | exited
deriving Repr, DecidableEq

/-- Full observable outcome of one `keypress` call: the engine state, the
loop result, and the command handed to `execcmd` if any. -/
structure KeyOutcome where
  state : EngineState
  result : KeyResult
  launched : Option (List Nat)
deriving Repr, DecidableEq

/-- Printable-symbol test at src/thingylaunch.cpp:528: the Latin window
[0x20, 0x13be] plus the keypad window [0xffb0, 0xffb9]. -/
def isPrintableSym (c : Nat) : Bool :=
  decide ((0x20 ≤ c ∧ c ≤ 0x13be) ∨ (0xffb0 ≤ c ∧ c ≤ 0xffb9))

/-- Insertion step of the printable branch: `push_back` when the cursor is
at the end, `insert(pos, 1, ch)` otherwise. -/
def spliceAt (cmd : List Nat) (pos b : Nat) : List Nat :=
  if pos = cmd.length then cmd ++ [b]
  else cmd.take pos ++ b :: cmd.drop pos

/-- Inner Ctrl-W scan for indices within bounds (`i ≤ length`): starting
from `i`, repeatedly decrement and test for a space, stopping at the space
index or at 0. Mirrors `while (i > 0) { if (m_command[--i] == ' ') break; }`. -/
def scanIn (text : List Nat) : Nat → Nat
  | 0 => 0
  | Nat.succ i => if text.getD i 0 = 0x20 then i else scanIn text i

/-- Ctrl-W backward scan including its memory-safety obligation: the first
read is at index `i - 1`, so a start value beyond the string length makes
the very first `m_command[--i]` access out of bounds (undefined behavior),
reported as `none`. -/
def scanLoop (text : List Nat) (i : Nat) : Option Nat :=
  if i ≤ text.length then some (scanIn text i) else none

/-- Outcome of the `switch (charPressed)` statement: a terminal outcome
(Escape, Return), fall-through to the printable test with the possibly
zeroed character, or undefined behavior. -/
inductive SwitchOut
  | done (o : KeyOutcome)
  | fall (st : EngineState) (c : Nat)
  | ub
deriving Repr

/-- The `switch (charPressed)` dispatch of `keypress`
(src/thingylaunch.cpp:437-525), translated case by case.
`m_command.erase(--m_cursorPos)` in the BackSpace case is the one-argument
`std::string::erase`, which removes every character from the new cursor
position through the end.  In the Ctrl-W case `auto i = m_cursorPos - 1`
is `size_t` arithmetic, so at cursor 0 it wraps to `2^64 - 1`, and
`m_command.erase(i, m_cursorPos)` passes the cursor as a count. -/
def switchStep (env : Env) (st : EngineState) (c : Nat) (ctrl : Bool) :
    SwitchOut :=
  if c = 0xff1b then
    SwitchOut.done ⟨st, KeyResult.exited, none⟩
  else if c = 0xff08 then
    SwitchOut.fall
      { (if st.cursorPos = 0 then st
         else { st with command := st.command.take (st.cursorPos - 1),
                        cursorPos := st.cursorPos - 1 }) with
          comp := compReset } c
  else if c = 0xff51 ∨ c = 0xff96 then
    SwitchOut.fall
      (if st.cursorPos = 0 then st
       else { st with cursorPos := st.cursorPos - 1 }) c
  else if c = 0xff53 ∨ c = 0xff98 then
    SwitchOut.fall
      (if st.cursorPos < st.command.length
       then { st with cursorPos := st.cursorPos + 1 } else st) c
  else if c = 0xff52 ∨ c = 0xff97 then
    SwitchOut.fall
      { st with command := (histPrevFn st.hist).2,
                cursorPos := (histPrevFn st.hist).2.length,
                hist := (histPrevFn st.hist).1 } c
  else if c = 0xff54 ∨ c = 0xff99 then
    SwitchOut.fall
      { st with command := (histNextFn st.hist).2,
                cursorPos := (histNextFn st.hist).2.length,
                hist := (histNextFn st.hist).1 } c
  else if c = 0xff50 ∨ c = 0xff95 then
    SwitchOut.fall { st with cursorPos := 0 } c
  else if c = 0xff57 ∨ c = 0xff9c then
    SwitchOut.fall { st with cursorPos := st.command.length } c
  else if c = 0xff0d then
    SwitchOut.done
      ⟨{ st with hist := histSave st.hist st.command }, KeyResult.term,
        some st.command⟩
  else if c = 0xff09 ∨ c = 0xff89 then
    SwitchOut.fall
      { st with command := (compNext env.scan st.comp st.command).2,
                cursorPos := (compNext env.scan st.comp st.command).2.length,
                comp := (compNext env.scan st.comp st.command).1 } c
  else if c = 0x6b then
    if ctrl then
      SwitchOut.fall { st with command := [], cursorPos := 0,
                               comp := compReset } 0
    else SwitchOut.fall st c
  else if c = 0x77 then
    if ctrl then
      match scanLoop st.command
          (if st.cursorPos = 0 then 2 ^ 64 - 1 else st.cursorPos - 1) with
      | none => SwitchOut.ub
      | some j =>
          SwitchOut.fall
            { st with
                command :=
                  st.command.take (if j = 0 then 0 else j + 1) ++
                    st.command.drop
                      ((if j = 0 then 0 else j + 1) + st.cursorPos),
                cursorPos := if j = 0 then 0 else j + 1 } 0
    else SwitchOut.fall st c
  else SwitchOut.fall st c

/-- One `Thingylaunch::keypress` call (src/thingylaunch.cpp:416-540):
shift-based case conversion, the Mod1 (Alt) bookmark branch, the symbol
switch, and the final printable-character insertion, which stores the
symbol narrowed to one byte (`std::string` holds `char`). `none` marks the
undefined behavior reachable in the Ctrl-W case. -/
def keypress (env : Env) (st : EngineState) (ev : KeyEvent) :
    Option KeyOutcome :=
  if ev.alt = true ∧ lookupBk env.bookmarks (resolveSym ev) ≠ [] then
    some ⟨⟨lookupBk env.bookmarks (resolveSym ev), st.cursorPos, st.comp,
            histSave st.hist (lookupBk env.bookmarks (resolveSym ev))⟩,
          KeyResult.term, some (lookupBk env.bookmarks (resolveSym ev))⟩
  else
    match switchStep env st (resolveSym ev) ev.ctrl with
    | SwitchOut.done o => some o
    | SwitchOut.ub => none
    | SwitchOut.fall st1 c =>
        if isPrintableSym c then
          some ⟨⟨spliceAt st1.command st1.cursorPos (c % 256),
                  st1.cursorPos + 1, compReset, st1.hist⟩,
                KeyResult.cont, none⟩
        else some ⟨st1, KeyResult.cont, none⟩

/-- One event-loop step: the loop keeps running only while `keypress`
returns `false` (`cont`). -/
def stepCont (env : Env) (st : EngineState) (ev : KeyEvent) :
    Option EngineState :=
  match keypress env st ev with
  | some ⟨s, KeyResult.cont, _⟩ => some s
  | _ => none

/-- Run a sequence of key events through the continuing event loop. -/
def runEvents (env : Env) (st : EngineState) : List KeyEvent → Option EngineState
  | [] => some st
  | ev :: evs =>
      match stepCont env st ev with
      | some s => runEvents env s evs
      | none => none

/-- Engine start state: empty buffer, cursor 0, reset completion engine,
history entries loaded from disk with navigation at the at-end sentinel. -/
def initState (h0 : List (List Nat)) : EngineState :=
  ⟨[], 0, compReset, ⟨h0, none⟩⟩

/-- Key event with no modifiers, used for typing printable characters. -/
def charEv (b : Nat) : KeyEvent := ⟨b, false, false, false⟩

/-- Unmodified Tab key event. -/
def tabEv : KeyEvent := ⟨0xff09, false, false, false⟩

/-- Environment with an empty path scan and no bookmarks. -/
def env0 : Env := ⟨fun _ => [], []⟩

/-- The observables claim C8 compares: buffer text, history entries,
launched command, and loop result. -/
def endObs (o : KeyOutcome) :
    List Nat × List (List Nat) × Option (List Nat) × KeyResult :=
  (o.state.command, o.state.hist.entries, o.launched, o.result)

/-- All keysyms with a dedicated `case` label in the symbol switch. -/
def handledSyms : List Nat :=
  [0xff1b, 0xff08, 0xff51, 0xff96, 0xff53, 0xff98, 0xff52, 0xff97,
   0xff54, 0xff99, 0xff50, 0xff95, 0xff57, 0xff9c, 0xff0d, 0xff09,
   0xff89, 0x6b, 0x77]

/-- Environment with one bookmark: Alt+x launches `ab`. -/
def env1 : Env := ⟨fun _ => [], [(0x78, [97, 98])]⟩

/-- Environment with one bookmark: Alt+x launches `ls`. -/
def env2 : Env := ⟨fun _ => [], [(120, [108, 115])]⟩

/-- The word-boundary index the Ctrl-W code computes for a cursor
position of at least 1: run the backward scan from `pos - 1`, then step
past the space found unless the scan stopped at index 0. -/
def ctrlWBoundary (cmd : List Nat) (pos : Nat) : Nat :=
  if scanIn cmd (pos - 1) = 0 then 0 else scanIn cmd (pos - 1) + 1

/-- Index of the nearest space strictly below the given position, if any. -/
def lastSpaceBefore (cmd : List Nat) : Nat → Option Nat
  | 0 => none
  | Nat.succ j => if cmd.getD j 0 = 0x20 then some j else lastSpaceBefore cmd j

/-- Claim C4's own wording of erase-word-backward, for comparison with the
code: the boundary is the index just after the nearest space strictly
before the cursor (0 if none); exactly the span from the boundary to the
cursor is removed and the cursor moves to the boundary. -/
def c4ClaimedResult (cmd : List Nat) (pos : Nat) : List Nat × Nat :=
  let b := match lastSpaceBefore cmd pos with
           | some j => j + 1
           | none => 0
  (cmd.take b ++ cmd.drop pos, b)

/-! Helper lemmas. -/

theorem scanIn_lt (t : List Nat) (i : Nat) (h : 0 < i) : scanIn t i < i := by
  induction i with
  | zero => omega
  | succ n ih =>
      simp only [scanIn]
      split
      · omega
      · rcases Nat.eq_zero_or_pos n with h0 | hp
        · subst h0
          simp [scanIn]
        · exact Nat.lt_succ_of_lt (ih hp)

theorem spliceAt_length (cmd : List Nat) (pos b : Nat) (h : pos ≤ cmd.length) :
    (spliceAt cmd pos b).length = cmd.length + 1 := by
  unfold spliceAt
  split
  · simp
  · simp only [List.length_append, List.length_take, List.length_cons,
      List.length_drop]
    omega

theorem switchStep_cases (env : Env) (st : EngineState) (c : Nat)
    (ctrl : Bool) :
    (∃ o, switchStep env st c ctrl = SwitchOut.done o ∧
      (o.result = KeyResult.exited ∨ o.result = KeyResult.term)) ∨
    (∃ st1 c1, switchStep env st c ctrl = SwitchOut.fall st1 c1 ∧
      (st.cursorPos ≤ st.command.length →
        st1.cursorPos ≤ st1.command.length)) ∨
    switchStep env st c ctrl = SwitchOut.ub := by
  unfold switchStep
  by_cases h1 : c = 0xff1b
  · rw [if_pos h1]
    exact Or.inl ⟨_, rfl, Or.inl rfl⟩
  rw [if_neg h1]
  by_cases h2 : c = 0xff08
  · rw [if_pos h2]
    refine Or.inr (Or.inl ⟨_, _, rfl, fun h => ?_⟩)
    dsimp only
    split
    · exact h
    · dsimp only
      simp only [List.length_take]
      omega
  rw [if_neg h2]
  by_cases h3 : c = 0xff51 ∨ c = 0xff96
  · rw [if_pos h3]
    refine Or.inr (Or.inl ⟨_, _, rfl, fun h => ?_⟩)
    split
    · exact h
    · dsimp only
      omega
  rw [if_neg h3]
  by_cases h4 : c = 0xff53 ∨ c = 0xff98
  · rw [if_pos h4]
    refine Or.inr (Or.inl ⟨_, _, rfl, fun h => ?_⟩)
    split
    · dsimp only
      omega
    · exact h
  rw [if_neg h4]
  by_cases h5 : c = 0xff52 ∨ c = 0xff97
  · rw [if_pos h5]
    exact Or.inr (Or.inl ⟨_, _, rfl, fun _ => Nat.le_refl _⟩)
  rw [if_neg h5]
  by_cases h6 : c = 0xff54 ∨ c = 0xff99
  · rw [if_pos h6]
    exact Or.inr (Or.inl ⟨_, _, rfl, fun _ => Nat.le_refl _⟩)
  rw [if_neg h6]
  by_cases h7 : c = 0xff50 ∨ c = 0xff95
  · rw [if_pos h7]
    exact Or.inr (Or.inl ⟨_, _, rfl, fun _ => Nat.zero_le _⟩)
  rw [if_neg h7]
  by_cases h8 : c = 0xff57 ∨ c = 0xff9c
  · rw [if_pos h8]
    exact Or.inr (Or.inl ⟨_, _, rfl, fun _ => Nat.le_refl _⟩)
  rw [if_neg h8]
  by_cases h9 : c = 0xff0d
  · rw [if_pos h9]
    exact Or.inl ⟨_, rfl, Or.inr rfl⟩
  rw [if_neg h9]
  by_cases h10 : c = 0xff09 ∨ c = 0xff89
  · rw [if_pos h10]
    exact Or.inr (Or.inl ⟨_, _, rfl, fun _ => Nat.le_refl _⟩)
  rw [if_neg h10]
  by_cases h11 : c = 0x6b
  · rw [if_pos h11]
    cases ctrl with
    | false =>
        rw [if_neg Bool.false_ne_true]
        exact Or.inr (Or.inl ⟨_, _, rfl, fun h => h⟩)
    | true =>
        rw [if_pos rfl]
        exact Or.inr (Or.inl ⟨_, _, rfl, fun _ => Nat.zero_le _⟩)
  rw [if_neg h11]
  by_cases h12 : c = 0x77
  · rw [if_pos h12]
    cases ctrl with
    | false =>
        rw [if_neg Bool.false_ne_true]
        exact Or.inr (Or.inl ⟨_, _, rfl, fun h => h⟩)
    | true =>
        rw [if_pos rfl]
        cases hsc : scanLoop st.command
            (if st.cursorPos = 0 then 2 ^ 64 - 1 else st.cursorPos - 1) with
        | none =>
            exact Or.inr (Or.inr rfl)
        | some j =>
            refine Or.inr (Or.inl ⟨_, _, rfl, fun h => ?_⟩)
            unfold scanLoop at hsc
            by_cases hb : (if st.cursorPos = 0 then 2 ^ 64 - 1
                else st.cursorPos - 1) ≤ st.command.length
            · rw [if_pos hb] at hsc
              injection hsc with hj
              dsimp only
              by_cases hj0 : j = 0
              · simp only [hj0, if_pos rfl]
                exact Nat.zero_le _
              · simp only [if_neg hj0]
                have hi0pos : 0 < (if st.cursorPos = 0 then 2 ^ 64 - 1
                    else st.cursorPos - 1) := by
                  rcases Nat.eq_zero_or_pos (if st.cursorPos = 0 then 2 ^ 64 - 1
                      else st.cursorPos - 1) with h0 | hp
                  · rw [h0] at hj
                    simp [scanIn] at hj
                    exact absurd hj.symm hj0
                  · exact hp
                have hjlt : j < (if st.cursorPos = 0 then 2 ^ 64 - 1
                    else st.cursorPos - 1) := hj ▸ scanIn_lt _ _ hi0pos
                have hjlen : j + 1 ≤ st.command.length :=
                  Nat.le_trans (Nat.succ_le_of_lt hjlt) hb
                simp only [List.length_append, List.length_take,
                  List.length_drop]
                omega
            · rw [if_neg hb] at hsc
              cases hsc
  rw [if_neg h12]
  exact Or.inr (Or.inl ⟨_, _, rfl, fun h => h⟩)

theorem keypress_cont_inv (env : Env) (st : EngineState) (ev : KeyEvent)
    (o : KeyOutcome) (hk : keypress env st ev = some o)
    (hres : o.result = KeyResult.cont)
    (h : st.cursorPos ≤ st.command.length) :
    o.state.cursorPos ≤ o.state.command.length := by
  unfold keypress at hk
  by_cases ha : ev.alt = true ∧ lookupBk env.bookmarks (resolveSym ev) ≠ []
  · rw [if_pos ha] at hk
    injection hk with hk
    subst hk
    cases hres
  · rw [if_neg ha] at hk
    rcases switchStep_cases env st (resolveSym ev) ev.ctrl with
      ⟨o2, hso, hr⟩ | ⟨st1, c1, hso, hinv⟩ | hso
    · rw [hso] at hk
      have hk2 : some o2 = some o := hk
      injection hk2 with hk2
      subst hk2
      rw [hres] at hr
      rcases hr with hr | hr <;> cases hr
    · rw [hso] at hk
      have hk2 : (if isPrintableSym c1 = true then
          some (⟨⟨spliceAt st1.command st1.cursorPos (c1 % 256),
                   st1.cursorPos + 1, compReset, st1.hist⟩,
                 KeyResult.cont, none⟩ : KeyOutcome)
        else some ⟨st1, KeyResult.cont, none⟩) = some o := hk
      by_cases hp : isPrintableSym c1 = true
      · rw [if_pos hp] at hk2
        injection hk2 with hk2
        subst hk2
        dsimp only
        rw [spliceAt_length st1.command st1.cursorPos (c1 % 256) (hinv h)]
        omega
      · rw [if_neg hp] at hk2
        injection hk2 with hk2
        subst hk2
        exact hinv h
    · rw [hso] at hk
      exact Option.noConfusion hk

theorem stepCont_inv (env : Env) (st : EngineState) (ev : KeyEvent)
    (s' : EngineState) (hs : stepCont env st ev = some s')
    (h : st.cursorPos ≤ st.command.length) :
    s'.cursorPos ≤ s'.command.length := by
  unfold stepCont at hs
  cases hk : keypress env st ev with
  | none =>
      rw [hk] at hs
      cases hs
  | some o =>
      rw [hk] at hs
      obtain ⟨os, ores, ol⟩ := o
      cases ores with
      | cont =>
          have hs2 : some os = some s' := hs
          injection hs2 with hs2
          exact hs2 ▸ keypress_cont_inv env st ev ⟨os, KeyResult.cont, ol⟩ hk rfl h
      | term => exact Option.noConfusion hs
      | exited => exact Option.noConfusion hs

theorem runEvents_inv (env : Env) (evs : List KeyEvent) :
    ∀ (s st : EngineState), runEvents env s evs = some st →
      s.cursorPos ≤ s.command.length → st.cursorPos ≤ st.command.length := by
  induction evs with
  | nil =>
      intro s st h hinv
      unfold runEvents at h
      injection h with h
      exact h ▸ hinv
  | cons ev evs ih =>
      intro s st h hinv
      unfold runEvents at h
      cases hst : stepCont env s ev with
      | none =>
          rw [hst] at h
          cases h
      | some s1 =>
          rw [hst] at h
          exact ih s1 st h (stepCont_inv env s ev s1 hst hinv)

theorem switchStep_printable (env : Env) (st : EngineState) (c : Nat)
    (hp : isPrintableSym c = true) :
    switchStep env st c false = SwitchOut.fall st c := by
  have hp2 : (0x20 ≤ c ∧ c ≤ 0x13be) ∨ (0xffb0 ≤ c ∧ c ≤ 0xffb9) := by
    simpa [isPrintableSym] using hp
  have n1 : c ≠ 0xff1b := by omega
  have n2 : c ≠ 0xff08 := by omega
  have n3 : ¬(c = 0xff51 ∨ c = 0xff96) := by omega
  have n4 : ¬(c = 0xff53 ∨ c = 0xff98) := by omega
  have n5 : ¬(c = 0xff52 ∨ c = 0xff97) := by omega
  have n6 : ¬(c = 0xff54 ∨ c = 0xff99) := by omega
  have n7 : ¬(c = 0xff50 ∨ c = 0xff95) := by omega
  have n8 : ¬(c = 0xff57 ∨ c = 0xff9c) := by omega
  have n9 : c ≠ 0xff0d := by omega
  have n10 : ¬(c = 0xff09 ∨ c = 0xff89) := by omega
  unfold switchStep
  rw [if_neg n1, if_neg n2, if_neg n3, if_neg n4, if_neg n5, if_neg n6,
      if_neg n7, if_neg n8, if_neg n9, if_neg n10]
  by_cases h11 : c = 0x6b
  · rw [if_pos h11, if_neg Bool.false_ne_true]
  · rw [if_neg h11]
    by_cases h12 : c = 0x77
    · rw [if_pos h12, if_neg Bool.false_ne_true]
    · rw [if_neg h12]

theorem switchStep_unmatched (env : Env) (st : EngineState) (c : Nat)
    (ctrl : Bool) (hc : c ∉ handledSyms) :
    switchStep env st c ctrl = SwitchOut.fall st c := by
  simp only [handledSyms, List.mem_cons, List.not_mem_nil, or_false,
    not_or] at hc
  obtain ⟨n1, n2, n3, n4, n5, n6, n7, n8, n9, n10, n11, n12, n13, n14,
    n15, n16, n17, n18, n19⟩ := hc
  unfold switchStep
  split_ifs <;> first | rfl | omega

theorem keypress_printable (env : Env) (st : EngineState) (c : Nat)
    (hp : isPrintableSym c = true) :
    keypress env st (charEv c) =
      some ⟨⟨spliceAt st.command st.cursorPos (c % 256), st.cursorPos + 1,
              compReset, st.hist⟩, KeyResult.cont, none⟩ := by
  unfold keypress
  rw [if_neg (by simp [charEv])]
  have hr : resolveSym (charEv c) = c := rfl
  have hct : (charEv c).ctrl = false := rfl
  rw [hr, hct, switchStep_printable env st c hp]
  show (if isPrintableSym c = true then
      some (⟨⟨spliceAt st.command st.cursorPos (c % 256), st.cursorPos + 1,
              compReset, st.hist⟩, KeyResult.cont, none⟩ : KeyOutcome)
    else some ⟨st, KeyResult.cont, none⟩) = _
  rw [if_pos hp]

theorem keypress_unmatched (env : Env) (st : EngineState) (c : Nat)
    (ctrl : Bool) (hp : isPrintableSym c = false) (hc : c ∉ handledSyms) :
    keypress env st ⟨c, false, ctrl, false⟩ =
      some ⟨st, KeyResult.cont, none⟩ := by
  unfold keypress
  rw [if_neg (by simp)]
  have hr : resolveSym ⟨c, false, ctrl, false⟩ = c := rfl
  rw [hr, switchStep_unmatched env st c ctrl hc]
  show (if isPrintableSym c = true then
      some (⟨⟨spliceAt st.command st.cursorPos (c % 256), st.cursorPos + 1,
              compReset, st.hist⟩, KeyResult.cont, none⟩ : KeyOutcome)
    else some ⟨st, KeyResult.cont, none⟩) = _
  rw [if_neg (by simp [hp])]

theorem switchStep_return (env : Env) (st : EngineState) (ct : Bool) :
    switchStep env st 0xff0d ct =
      SwitchOut.done ⟨⟨st.command, st.cursorPos, st.comp,
          histSave st.hist st.command⟩, KeyResult.term, some st.command⟩ := by
  unfold switchStep
  rw [if_neg (show (0xff0d : Nat) ≠ 0xff1b by decide),
      if_neg (show (0xff0d : Nat) ≠ 0xff08 by decide),
      if_neg (show ¬((0xff0d : Nat) = 0xff51 ∨ (0xff0d : Nat) = 0xff96)
        by decide),
      if_neg (show ¬((0xff0d : Nat) = 0xff53 ∨ (0xff0d : Nat) = 0xff98)
        by decide),
      if_neg (show ¬((0xff0d : Nat) = 0xff52 ∨ (0xff0d : Nat) = 0xff97)
        by decide),
      if_neg (show ¬((0xff0d : Nat) = 0xff54 ∨ (0xff0d : Nat) = 0xff99)
        by decide),
      if_neg (show ¬((0xff0d : Nat) = 0xff50 ∨ (0xff0d : Nat) = 0xff95)
        by decide),
      if_neg (show ¬((0xff0d : Nat) = 0xff57 ∨ (0xff0d : Nat) = 0xff9c)
        by decide),
      if_pos (show (0xff0d : Nat) = 0xff0d from rfl)]

theorem keypress_return (env : Env) (st : EngineState) (sh ct : Bool) :
    keypress env st ⟨0xff0d, sh, ct, false⟩ =
      some ⟨⟨st.command, st.cursorPos, st.comp, histSave st.hist st.command⟩,
            KeyResult.term, some st.command⟩ := by
  unfold keypress
  rw [if_neg (by simp)]
  have hr : resolveSym ⟨0xff0d, sh, ct, false⟩ = 0xff0d := by
    cases sh <;> rfl
  have hct : (⟨0xff0d, sh, ct, false⟩ : KeyEvent).ctrl = ct := rfl
  rw [hr, hct, switchStep_return env st ct]

theorem keypress_bookmark (env : Env) (st : EngineState) (s : Nat)
    (ct : Bool) (hne : lookupBk env.bookmarks s ≠ []) :
    keypress env st ⟨s, false, ct, true⟩ =
      some ⟨⟨lookupBk env.bookmarks s, st.cursorPos, st.comp,
              histSave st.hist (lookupBk env.bookmarks s)⟩,
            KeyResult.term, some (lookupBk env.bookmarks s)⟩ := by
  unfold keypress
  rw [if_pos ⟨rfl, hne⟩]
  rfl

theorem tab_step (env : Env) (st : EngineState) :
    stepCont env st tabEv =
      some ⟨(compNext env.scan st.comp st.command).2,
            (compNext env.scan st.comp st.command).2.length,
            (compNext env.scan st.comp st.command).1, st.hist⟩ := rfl

theorem compNext_live (scan : List Nat → List (List Nat)) (cs : CompState)
    (q : List Nat) (i : Nat) (hi : cs.cursorIndex = some i)
    (hne : cs.candidates ≠ []) :
    (compNext scan cs q).1.candidates = cs.candidates ∧
    (compNext scan cs q).1.cursorIndex =
      some ((i + 1) % cs.candidates.length) := by
  obtain ⟨cands, ci, lq⟩ := cs
  dsimp at hi hne ⊢
  subst hi
  have h0 : ¬ cands.length = 0 := fun h => hne (List.length_eq_zero.mp h)
  simp [compNext, h0]

theorem typeRun (env : Env) (bs : List Nat) :
    ∀ (st : EngineState), (∀ b ∈ bs, isPrintableSym b = true) →
      st.cursorPos = st.command.length → st.comp = compReset →
      runEvents env st (List.map charEv bs) =
        some ⟨st.command ++ List.map (fun b => b % 256) bs,
              st.command.length + bs.length, compReset, st.hist⟩ := by
  induction bs with
  | nil =>
      intro st hp hc hcomp
      obtain ⟨cmd, pos, comp, hist⟩ := st
      dsimp at hc hcomp
      subst hc
      subst hcomp
      unfold runEvents
      simp
  | cons b bs ih =>
      intro st hp hc hcomp
      have hb : isPrintableSym b = true := hp b (by simp)
      have hstep : stepCont env st (charEv b) =
          some ⟨st.command ++ [b % 256], st.cursorPos + 1, compReset,
                st.hist⟩ := by
        unfold stepCont
        rw [keypress_printable env st b hb]
        show some (⟨spliceAt st.command st.cursorPos (b % 256),
            st.cursorPos + 1, compReset, st.hist⟩ : EngineState) = _
        rw [spliceAt, if_pos hc]
      rw [List.map_cons]
      unfold runEvents
      rw [hstep]
      show runEvents env ⟨st.command ++ [b % 256], st.cursorPos + 1,
          compReset, st.hist⟩ (List.map charEv bs) = _
      rw [ih _ (fun x hx => hp x (by simp [hx])) (by simp [hc]) rfl]
      have hcmd : (st.command ++ [b % 256]) ++
          List.map (fun x => x % 256) bs =
          st.command ++ List.map (fun x => x % 256) (b :: bs) := by
        simp
      have hlen : (st.command ++ [b % 256]).length + bs.length =
          st.command.length + (b :: bs).length := by
        simp only [List.length_append, List.length_cons, List.length_nil]
        omega
      rw [hcmd, hlen]

theorem switchStep_ctrlw (env : Env) (st : EngineState)
    (h1 : 1 ≤ st.cursorPos) (h2 : st.cursorPos ≤ st.command.length) :
    switchStep env st 0x77 true =
      SwitchOut.fall
        ⟨st.command.take (ctrlWBoundary st.command st.cursorPos) ++
           st.command.drop (ctrlWBoundary st.command st.cursorPos +
             st.cursorPos),
         ctrlWBoundary st.command st.cursorPos, st.comp, st.hist⟩ 0 := by
  have hne : st.cursorPos ≠ 0 := by omega
  have hle : st.cursorPos - 1 ≤ st.command.length := by omega
  have hscan : scanLoop st.command
      (if st.cursorPos = 0 then 2 ^ 64 - 1 else st.cursorPos - 1) =
      some (scanIn st.command (st.cursorPos - 1)) := by
    rw [if_neg hne]
    unfold scanLoop
    rw [if_pos hle]
  unfold switchStep
  rw [hscan]
  rfl

theorem keypress_ctrlw (env : Env) (st : EngineState)
    (h1 : 1 ≤ st.cursorPos) (h2 : st.cursorPos ≤ st.command.length) :
    keypress env st ⟨0x77, false, true, false⟩ =
      some ⟨⟨st.command.take (ctrlWBoundary st.command st.cursorPos) ++
               st.command.drop (ctrlWBoundary st.command st.cursorPos +
                 st.cursorPos),
             ctrlWBoundary st.command st.cursorPos, st.comp, st.hist⟩,
            KeyResult.cont, none⟩ := by
  unfold keypress
  rw [if_neg (by simp)]
  have hr : resolveSym ⟨0x77, false, true, false⟩ = 0x77 := rfl
  have hct : (⟨0x77, false, true, false⟩ : KeyEvent).ctrl = true := rfl
  rw [hr, hct, switchStep_ctrlw env st h1 h2]
  rfl

/-! Claim theorems. -/

/-- Claim C1 (counterexample): the cursor-range invariant as stated fails on
a reachable sequence: typing `hello` (cursor 5) and then triggering the
Alt+x bookmark replaces the buffer with `ab` and terminates without
touching `m_cursorPos`, so after that `keypress` call the cursor (5) exceeds
the buffer length (2). -/
theorem c1_bookmark_cursor_beyond_length :
    ((runEvents env1 (initState [])
        [charEv 104, charEv 101, charEv 108, charEv 108, charEv 111]).bind
      fun s => keypress env1 s ⟨0x78, false, false, true⟩) =
      some ⟨⟨[97, 98], 5, compReset, ⟨[[97, 98]], none⟩⟩, KeyResult.term,
            some [97, 98]⟩ ∧
    ¬ (5 : Nat) ≤ ([97, 98] : List Nat).length :=
  ⟨by decide, by decide⟩

/-- Claim C1 (amended): for every reachable sequence of key events starting
from the empty buffer, after each `keypress` call that keeps the event loop
running (returns `continue`) the cursor satisfies
`0 ≤ cursor ≤ length(text)`; a terminating bookmark launch may leave the
cursor beyond the replaced buffer. -/
theorem c1_cursor_in_range_for_continue_runs (env : Env)
    (h0 : List (List Nat)) (evs : List KeyEvent) (st : EngineState)
    (h : runEvents env (initState h0) evs = some st) :
    st.cursorPos ≤ st.command.length :=
  runEvents_inv env evs (initState h0) st h (Nat.zero_le _)

/-- Witness for C1: one printable key from the start state lands in a state
with cursor 1 and buffer length 1. -/
theorem c1_cursor_in_range_witness :
    (⟨[104], 1, compReset, ⟨[], none⟩⟩ : EngineState).cursorPos ≤
      (⟨[104], 1, compReset, ⟨[], none⟩⟩ : EngineState).command.length :=
  c1_cursor_in_range_for_continue_runs env0 [] [charEv 104]
    ⟨[104], 1, compReset, ⟨[], none⟩⟩ (by decide)

/-- Claim C2 (code bug): BackSpace with the cursor mid-string erases from
the new cursor position through the end of the buffer — the code calls the
one-argument `std::string::erase` — instead of removing only the character
before the cursor: on buffer `ab` with cursor 1 the result is the empty
buffer rather than `b`. -/
theorem c2_backspace_erases_suffix_eval :
    keypress env0 ⟨[97, 98], 1, compReset, ⟨[], none⟩⟩
        ⟨0xff08, false, false, false⟩ =
      some ⟨⟨[], 0, compReset, ⟨[], none⟩⟩, KeyResult.cont, none⟩ ∧
    ([] : List Nat) ≠ [98] :=
  ⟨by decide, by decide⟩

/-- Claim C3 (counterexample): handling History-Up does not reset the
CompletionEngine: with a live candidate list `git`/`gimp` the completion
state is carried over unchanged, and it differs from the reset state. -/
theorem c3_up_does_not_reset_completion :
    keypress env0
        ⟨[103, 105, 116], 3,
         ⟨[[103, 105, 116], [103, 105, 109, 112]], some 0, some [103, 105]⟩,
         ⟨[], none⟩⟩
        ⟨0xff52, false, false, false⟩ =
      some ⟨⟨[], 0,
             ⟨[[103, 105, 116], [103, 105, 109, 112]], some 0,
              some [103, 105]⟩, ⟨[], none⟩⟩, KeyResult.cont, none⟩ ∧
    (⟨[[103, 105, 116], [103, 105, 109, 112]], some 0, some [103, 105]⟩ :
      CompState) ≠ compReset :=
  ⟨by decide, by decide⟩

/-- Claim C3 (amended): history navigation (Up, KP-Up, Down, KP-Down)
leaves the completion engine state unchanged; the keys that do reset it are
erase-backward (BackSpace), clear-line (Ctrl+K) and printable insertion. -/
theorem c3_history_nav_preserves_completion (env : Env) (st : EngineState) :
    ((keypress env st ⟨0xff52, false, false, false⟩).map
      fun o => o.state.comp) = some st.comp ∧
    ((keypress env st ⟨0xff97, false, false, false⟩).map
      fun o => o.state.comp) = some st.comp ∧
    ((keypress env st ⟨0xff54, false, false, false⟩).map
      fun o => o.state.comp) = some st.comp ∧
    ((keypress env st ⟨0xff99, false, false, false⟩).map
      fun o => o.state.comp) = some st.comp ∧
    ((keypress env st ⟨0xff08, false, false, false⟩).map
      fun o => o.state.comp) = some compReset ∧
    ((keypress env st ⟨0x6b, false, true, false⟩).map
      fun o => o.state.comp) = some compReset ∧
    ((keypress env st (charEv 0x61)).map
      fun o => o.state.comp) = some compReset :=
  ⟨rfl, rfl, rfl, rfl, rfl, rfl, rfl⟩

/-- Claim C4 (counterexample): on buffer `ab cd ef` with cursor 5, the code
leaves `ab ` (it passes the cursor as the erase count, deleting past the
cursor), while the claim's span rule predicts `ab  ef` with the text at and
after the cursor intact. -/
theorem c4_ctrlw_deletes_beyond_cursor :
    keypress env0 ⟨[97, 98, 32, 99, 100, 32, 101, 102], 5, compReset,
        ⟨[], none⟩⟩ ⟨0x77, false, true, false⟩ =
      some ⟨⟨[97, 98, 32], 3, compReset, ⟨[], none⟩⟩, KeyResult.cont,
            none⟩ ∧
    c4ClaimedResult [97, 98, 32, 99, 100, 32, 101, 102] 5 =
      ([97, 98, 32, 32, 101, 102], 3) ∧
    ([97, 98, 32] : List Nat) ≠ [97, 98, 32, 32, 101, 102] :=
  ⟨by decide, by decide, by decide⟩

/-- Claim C4 (amended): for cursor `pos ≥ 1` (within the buffer), Ctrl+W
computes the boundary by scanning for a space from index `pos - 2` downward
(a space at index 0 yields boundary 0, any other space at index `j` yields
boundary `j + 1`, no space yields 0), then erases `pos` characters starting
at the boundary — clamped at the end of the buffer, so when the boundary is
positive the deletion can extend beyond the cursor — and moves the cursor
to the boundary.  On `echo hello` with cursor at the end this leaves
`echo ` with cursor 5, and applied again leaves the empty buffer with
cursor 0. -/
theorem c4_ctrlw_code_behavior :
    (∀ (env : Env) (st : EngineState), 1 ≤ st.cursorPos →
      st.cursorPos ≤ st.command.length →
      keypress env st ⟨0x77, false, true, false⟩ =
        some ⟨⟨st.command.take (ctrlWBoundary st.command st.cursorPos) ++
                 st.command.drop (ctrlWBoundary st.command st.cursorPos +
                   st.cursorPos),
               ctrlWBoundary st.command st.cursorPos, st.comp, st.hist⟩,
              KeyResult.cont, none⟩) ∧
    keypress env0 ⟨[101, 99, 104, 111, 32, 104, 101, 108, 108, 111], 10,
        compReset, ⟨[], none⟩⟩ ⟨0x77, false, true, false⟩ =
      some ⟨⟨[101, 99, 104, 111, 32], 5, compReset, ⟨[], none⟩⟩,
            KeyResult.cont, none⟩ ∧
    keypress env0 ⟨[101, 99, 104, 111, 32], 5, compReset, ⟨[], none⟩⟩
        ⟨0x77, false, true, false⟩ =
      some ⟨⟨[], 0, compReset, ⟨[], none⟩⟩, KeyResult.cont, none⟩ :=
  ⟨fun env st h1 h2 => keypress_ctrlw env st h1 h2, by decide, by decide⟩

/-- Witness for C4: the general Ctrl-W characterization applied to
`ab cd ef` with cursor 5 evaluates to `ab ` with cursor 3. -/
theorem c4_ctrlw_code_witness :
    keypress env0 ⟨[97, 98, 32, 99, 100, 32, 101, 102], 5, compReset,
        ⟨[], none⟩⟩ ⟨0x77, false, true, false⟩ =
      some ⟨⟨[97, 98, 32], 3, compReset, ⟨[], none⟩⟩, KeyResult.cont,
            none⟩ := by
  have h := c4_ctrlw_code_behavior.1 env0
    ⟨[97, 98, 32, 99, 100, 32, 101, 102], 5, compReset, ⟨[], none⟩⟩
    (by decide) (by decide)
  rw [h]
  decide

/-- Claim C5 (code bug): Ctrl+W with the cursor at 0 is not a no-op: the
`size_t` expression `m_cursorPos - 1` wraps to `2^64 - 1` and the very
first `m_command[--i]` read indexes the string out of bounds — undefined
behavior, modelled as `none`. -/
theorem c5_ctrlw_at_zero_underflows :
    keypress env0 ⟨[], 0, compReset, ⟨[], none⟩⟩
        ⟨0x77, false, true, false⟩ = none ∧
    scanLoop ([] : List Nat) (2 ^ 64 - 1) = none :=
  ⟨by decide, by decide⟩

/-- Claim C6: Tab replaces the buffer with `Completion::next` of the current
buffer, moves the cursor to the end of the new text, stores the advanced
completion state without resetting it, and therefore a second Tab with no
intervening key cycles over the same candidate list. -/
theorem c6_tab_replaces_and_preserves_candidates :
    (∀ (env : Env) (st : EngineState),
      keypress env st tabEv =
        some ⟨⟨(compNext env.scan st.comp st.command).2,
               (compNext env.scan st.comp st.command).2.length,
               (compNext env.scan st.comp st.command).1, st.hist⟩,
              KeyResult.cont, none⟩) ∧
    (∀ (env : Env) (st : EngineState) (i : Nat),
      st.comp.cursorIndex = some i → st.comp.candidates ≠ [] →
      ((stepCont env st tabEv).bind fun s1 => stepCont env s1 tabEv).map
          (fun s2 => s2.comp.candidates) = some st.comp.candidates) := by
  constructor
  · intro env st
    rfl
  · intro env st i hi hne
    show some ((compNext env.scan (compNext env.scan st.comp st.command).1
        (compNext env.scan st.comp st.command).2).1.candidates) =
      some st.comp.candidates
    have h1 := compNext_live env.scan st.comp st.command i hi hne
    have h2 := compNext_live env.scan
      (compNext env.scan st.comp st.command).1
      (compNext env.scan st.comp st.command).2
      ((i + 1) % st.comp.candidates.length) h1.2
      (by rw [h1.1]; exact hne)
    rw [h2.1, h1.1]

/-- Witness for C6: with a live single-candidate list, two consecutive Tab
presses preserve the candidate list. -/
theorem c6_tab_witness :
    ((stepCont env0 ⟨[], 0, ⟨[[103]], some 0, none⟩, ⟨[], none⟩⟩ tabEv).bind
        fun s1 => stepCont env0 s1 tabEv).map
      (fun s2 => s2.comp.candidates) = some [[103]] :=
  c6_tab_replaces_and_preserves_candidates.2 env0
    ⟨[], 0, ⟨[[103]], some 0, none⟩, ⟨[], none⟩⟩ 0 rfl (by decide)

/-- Claim C7: Enter saves exactly the current buffer to the history,
launches it, and terminates, with no special case for the empty buffer
(the statement quantifies over every state, the empty buffer included). -/
theorem c7_return_saves_and_launches (env : Env) (st : EngineState)
    (sh ct : Bool) :
    keypress env st ⟨0xff0d, sh, ct, false⟩ =
      some ⟨⟨st.command, st.cursorPos, st.comp,
              histSave st.hist st.command⟩,
            KeyResult.term, some st.command⟩ :=
  keypress_return env st sh ct

/-- Claim C8: a bookmark-trigger keystroke for a symbol mapped to a
non-empty command `cmd` (of typeable bytes) produces, from the start state,
the same observables as typing `cmd` into the empty buffer and pressing
Enter: buffer `cmd`, history extended with `cmd`, launcher invoked with
`cmd`, and a terminating result. -/
theorem c8_bookmark_equiv_type_and_submit (env : Env)
    (h0 : List (List Nat)) (s : Nat) (cmd : List Nat)
    (hlook : lookupBk env.bookmarks s = cmd) (hne : cmd ≠ [])
    (hbytes : ∀ b ∈ cmd, 0x20 ≤ b ∧ b ≤ 0xff) :
    ((keypress env (initState h0) ⟨s, false, false, true⟩).map endObs =
      some (cmd, h0 ++ [cmd], some cmd, KeyResult.term)) ∧
    (((runEvents env (initState h0) (List.map charEv cmd)).bind fun st =>
        keypress env st ⟨0xff0d, false, false, false⟩).map endObs =
      some (cmd, h0 ++ [cmd], some cmd, KeyResult.term)) := by
  constructor
  · rw [keypress_bookmark env (initState h0) s false
      (by rw [hlook]; exact hne)]
    rw [hlook]
    simp [endObs, histSave, initState]
  · have hpr : ∀ b ∈ cmd, isPrintableSym b = true := by
      intro b hb
      have hby := hbytes b hb
      simp only [isPrintableSym, decide_eq_true_eq]
      left
      omega
    have hmap : List.map (fun b => b % 256) cmd = cmd := by
      have hid : ∀ b ∈ cmd, b % 256 = b := fun b hb =>
        Nat.mod_eq_of_lt (by have := hbytes b hb; omega)
      calc List.map (fun b => b % 256) cmd
          = List.map id cmd := List.map_congr_left hid
        _ = cmd := List.map_id cmd
    have hrun := typeRun env cmd (initState h0) hpr rfl rfl
    rw [hrun]
    show (keypress env ⟨([] : List Nat) ++ List.map (fun b => b % 256) cmd,
        ([] : List Nat).length + cmd.length, compReset, ⟨h0, none⟩⟩
        ⟨0xff0d, false, false, false⟩).map endObs =
      some (cmd, h0 ++ [cmd], some cmd, KeyResult.term)
    rw [keypress_return]
    simp [endObs, histSave, hmap]

/-- Witness for C8: the Alt+x bookmark `ls` and typing `ls` then Enter
produce the same observables from the empty start state. -/
theorem c8_bookmark_equiv_witness :
    ((keypress env2 (initState []) ⟨120, false, false, true⟩).map endObs =
      some ([108, 115], [] ++ [[108, 115]], some [108, 115],
            KeyResult.term)) ∧
    (((runEvents env2 (initState []) (List.map charEv [108, 115])).bind
        fun st => keypress env2 st ⟨0xff0d, false, false, false⟩).map
      endObs =
      some ([108, 115], [] ++ [[108, 115]], some [108, 115],
            KeyResult.term)) :=
  c8_bookmark_equiv_type_and_submit env2 [] 120 [108, 115] rfl (by decide)
    (by decide)

/-- Claim C9 (counterexample): an in-window keypad symbol is not inserted
as itself: KP-0 (0xffb0) stores the byte 0xb0 (`std::string` holds `char`,
so the symbol is narrowed mod 256), which differs from the symbol. -/
theorem c9_keypad_inserts_truncated_byte :
    keypress env0 ⟨[], 0, compReset, ⟨[], none⟩⟩
        ⟨0xffb0, false, false, false⟩ =
      some ⟨⟨[0xb0], 1, compReset, ⟨[], none⟩⟩, KeyResult.cont, none⟩ ∧
    ([0xb0] : List Nat) ≠ [0xffb0] :=
  ⟨by decide, by decide⟩

/-- Claim C9 (amended): an unmodified key whose symbol lies in
[0x20, 0x13be] or [0xffb0, 0xffb9] inserts the one byte `symbol mod 256`
at the cursor, advances the cursor by 1 and resets the CompletionEngine;
an unmodified symbol outside both windows with no dedicated switch case
leaves the state unchanged; and a run of `n` printable insertions from the
start state yields `length(text) = n` and `cursor = n`. -/
theorem c9_printable_inserts_byte :
    (∀ (env : Env) (st : EngineState) (c : Nat), isPrintableSym c = true →
      keypress env st (charEv c) =
        some ⟨⟨spliceAt st.command st.cursorPos (c % 256),
                st.cursorPos + 1, compReset, st.hist⟩,
              KeyResult.cont, none⟩) ∧
    (∀ (env : Env) (st : EngineState) (c : Nat) (ctrl : Bool),
      isPrintableSym c = false → c ∉ handledSyms →
      keypress env st ⟨c, false, ctrl, false⟩ =
        some ⟨st, KeyResult.cont, none⟩) ∧
    (∀ (env : Env) (h0 : List (List Nat)) (bs : List Nat),
      (∀ b ∈ bs, isPrintableSym b = true) →
      (runEvents env (initState h0) (List.map charEv bs)).map
          (fun st => (st.command.length, st.cursorPos)) =
        some (bs.length, bs.length)) := by
  refine ⟨keypress_printable, keypress_unmatched, ?_⟩
  intro env h0 bs hp
  rw [typeRun env bs (initState h0) hp rfl rfl]
  simp [initState]

/-- Witness for C9: inserting `A` (0x41) from the start state appends the
byte 0x41 and moves the cursor to 1. -/
theorem c9_printable_inserts_witness :
    keypress env0 ⟨[], 0, compReset, ⟨[], none⟩⟩ (charEv 0x41) =
      some ⟨⟨spliceAt ([] : List Nat) 0 (0x41 % 256), 0 + 1, compReset,
              ⟨[], none⟩⟩, KeyResult.cont, none⟩ :=
  c9_printable_inserts_byte.1 env0 ⟨[], 0, compReset, ⟨[], none⟩⟩ 0x41
    (by decide)

/-- Claim C10: with the bookmark modifier held, a symbol whose lookup yields
the empty string is treated exactly like an absent bookmark: no save, no
launch, and the event is handled as if the modifier were not held. -/
theorem c10_empty_bookmark_falls_through (env : Env) (st : EngineState)
    (ev : KeyEvent) (ha : ev.alt = true)
    (hl : lookupBk env.bookmarks (resolveSym ev) = []) :
    keypress env st ev =
      keypress env st ⟨ev.sym, ev.shift, ev.ctrl, false⟩ := by
  obtain ⟨s, sh, ct, al⟩ := ev
  dsimp only at ha hl
  subst ha
  have h1 : ¬((⟨s, sh, ct, true⟩ : KeyEvent).alt = true ∧
      lookupBk env.bookmarks (resolveSym ⟨s, sh, ct, true⟩) ≠ []) :=
    fun h => h.2 hl
  have h2 : ¬((⟨s, sh, ct, false⟩ : KeyEvent).alt = true ∧
      lookupBk env.bookmarks (resolveSym ⟨s, sh, ct, false⟩) ≠ []) := by
    simp
  unfold keypress
  rw [if_neg h1, if_neg h2]
  rfl

/-- Witness for C10: Alt+a with no bookmark table behaves exactly like a
plain `a` keystroke. -/
theorem c10_empty_bookmark_witness :
    keypress env0 ⟨[], 0, compReset, ⟨[], none⟩⟩ ⟨0x61, false, false, true⟩ =
      keypress env0 ⟨[], 0, compReset, ⟨[], none⟩⟩
        ⟨0x61, false, false, false⟩ :=
  c10_empty_bookmark_falls_through env0 ⟨[], 0, compReset, ⟨[], none⟩⟩
    ⟨0x61, false, false, true⟩ rfl rfl
